import Mathlib

/-!
Shallow embedding of `run_sumo_ca.py`, the training/evaluation driver of the
PedestrianCollision repository.  Python floats are modelled as rationals,
Python exceptions (`NameError` at agent construction, `ZeroDivisionError` in
`%` and `/`) as an `Except` monad, and observable effects (tensorboard
scalars, the console summary block, checkpoint saves) as an event trace.
The external agent (`agent.run`, `agent.alpha`, `agent.logger`) is a
deterministic stub indexed by the number of calls made so far.
-/

namespace SumoCA

/-- Result of one `agent.run(max_step)` call: `(train_step_length,
train_episode_return, collision_flag)` in the source. -/
structure EpisodeResult where
  steps : Nat
  ret : ℚ
  collision : Bool
deriving DecidableEq

/-- Deterministic stub for the external agent: `run` is indexed by how many
`agent.run` calls happened before, `alpha` is the entropy coefficient read
when logging `Train/Alpha`, `loggerRepr` is the rendering of `agent.logger`
in the console summary. -/
structure AgentStub where
  run : Nat → EpisodeResult
  alpha : Nat → ℚ
  loggerRepr : String

/-- The argparse configuration record of `run_sumo_ca.py` (lines 12-33). -/
structure Config where
  env : String
  algo : String
  seed : Int
  training_eps : Nat
  eval_per_train : Nat
  evaluation_eps : Nat
  max_step : Nat
  threshold_return : Int
  tensorboard : Bool
  gpu_index : Nat
  model_path : String
deriving DecidableEq

/-- Python runtime errors that the driver can raise.  `nameError` is the
`NameError` raised when the name `Agent` was never imported;
`zeroDivisionError` is raised by `%` and `/` with zero divisor;
`configError` models a fatal configuration diagnostic issued at startup
(the code never produces it; it is the behaviour the spec asks for). -/
inductive PyError where
  | nameError
  | zeroDivisionError
  | configError
deriving DecidableEq

/-- Observable events of one run: `writer.add_scalar(tag, value, step)`
calls, the console summary block printed at every evaluation boundary
(lines 162-171), and `torch.save` of a checkpoint (line 184).  The summary
carries, in order: Steps, Episodes, AverageReturn, EvalEpisodes,
EvalAverageReturn, CollisionRate, OtherLogs, Time. -/
inductive Event where
  | addScalar (tag : String) (value : ℚ) (step : Int)
  | printSummary (steps episodes : Nat) (trainAvg : ℚ) (evalEpisodes : Nat)
      (evalAvg : ℚ) (collRate : ℚ) (logger : String) (time : Nat)
  | saveCkpt (path : String)
deriving DecidableEq

/-- Mutable state of the outer loop: the evaluation-mode flag passed to each
`agent.run` call so far (`false` = learning mode), the four training
aggregates (lines 108-111), and the event trace. -/
@[ext]
structure LoopState where
  callModes : List Bool
  train_num_steps : Nat
  train_sum_returns : ℚ
  train_num_episodes : Nat
  train_num_collision : Nat
  events : List Event
deriving DecidableEq

/-- Accumulator of one evaluation block (lines 142-151). -/
@[ext]
structure EvalAcc where
  callModes : List Bool
  eval_sum_returns : ℚ
  eval_num_episodes : Nat
  eval_num_collision : Nat
  events : List Event
deriving DecidableEq

/-- Python `a % b` on nonnegative ints: raises `ZeroDivisionError` when
`b = 0`. -/
def pyModNat (a b : Nat) : Except PyError Nat :=
  if b = 0 then .error .zeroDivisionError else .ok (a % b)

/-- Python true division `a / b` of nonnegative ints (yields a float):
raises `ZeroDivisionError` when `b = 0`. -/
def pyDivNat (a b : Nat) : Except PyError ℚ :=
  if b = 0 then .error .zeroDivisionError else .ok ((a : ℚ) / (b : ℚ))

/-- The guarded average pattern `sum / n if n > 0 else 0.0` of lines 126
and 155. -/
def guardedAvg (sum : ℚ) (n : Nat) : ℚ :=
  if 0 < n then sum / (n : ℚ) else 0

/-- Round to the nearest integer, ties to even (Python rounding of a
float, idealised to exact rationals). -/
def roundHalfEven (q : ℚ) : Int :=
  let f := ⌊q⌋
  let r := q - (f : ℚ)
  if r < 1/2 then f
  else if 1/2 < r then f + 1
  else if f % 2 = 0 then f else f + 1

/-- Python `round(q, 2)`, idealised to exact rationals. -/
def pyRound2 (q : ℚ) : ℚ :=
  (roundHalfEven (q * 100) : ℚ) / 100

/-- Rendering of a (rounded) float by Python `str`, modelled as an
injective rendering of the rational value. -/
def floatRepr (q : ℚ) : String :=
  toString q

/-- The checkpoint path built at lines 178-182:
`./tests/save_model/` then env, algo, seed, cumulative training episode
count, and the two already-rounded average returns, with extension `.pt`. -/
def mkCkptPath (cfg : Config) (epCount : Nat) (trAvg evAvg : ℚ) : String :=
  "./tests/save_model/" ++ cfg.env ++ "_" ++ cfg.algo
    ++ "_s_" ++ toString cfg.seed
    ++ "_ep_" ++ toString epCount
    ++ "_tr_" ++ floatRepr trAvg
    ++ "_er_" ++ floatRepr evAvg ++ ".pt"

/-- The agent modules that the import chain at lines 36-55 can bind the
name `Agent` to. -/
inductive AgentModule where
  | vpgM
  | trpoM
  | ppoM
  | ddpgM
  | td3M
  | sacM
deriving DecidableEq

/-- The import chain at lines 36-55: for each recognised algorithm
identifier, the module whose `Agent` class is imported; for any other
identifier no branch fires and the name `Agent` stays unbound (`none`). -/
def importAgent (algo : String) : Option AgentModule :=
  if algo = "vpg" then some .vpgM
  else if algo = "npg" then some .trpoM
  else if algo = "trpo" then some .trpoM
  else if algo = "ppo" then some .ppoM
  else if algo = "ddpg" then some .ddpgM
  else if algo = "td3" then some .td3M
  else if algo = "sac" then some .sacM
  else if algo = "asac" then some .sacM
  else if algo = "tac" then some .sacM
  else if algo = "atac" then some .sacM
  else none

/-- Evaluating the name `Agent` inside `main`: a `NameError` when the
selector chain at lines 36-55 bound nothing. -/
def importedAgent (algo : String) : Except PyError AgentModule :=
  match importAgent algo with
  | some m => .ok m
  | none => .error .nameError

/-- The constructor call actually made for the agent (lines 73-96): the
module the name `Agent` resolved to plus the branch-specific keyword
arguments. -/
structure AgentCtorArgs where
  module : AgentModule
  alpha : Option ℚ
  load_model : Bool
  automatic_entropy_tuning : Bool
  log_type : Option String
  entropic_index : Option ℚ
deriving DecidableEq

/-- Agent construction, lines 73-96 of `main`.  Every branch evaluates the
name `Agent`; the trailing `else` branch (intended for vpg/npg/trpo/ppo)
also catches every unrecognised identifier, whereupon evaluating `Agent`
raises `NameError`. -/
def constructAgent (cfg : Config) : Except PyError AgentCtorArgs := do
  if cfg.algo = "ddpg" ∨ cfg.algo = "td3" then
    let m ← importedAgent cfg.algo
    return ⟨m, none, false, false, none, none⟩
  else if cfg.algo = "sac" then
    let m ← importedAgent cfg.algo
    if 5 < cfg.model_path.length then
      return ⟨m, some (1/2), true, false, none, none⟩
    else
      return ⟨m, some (1/2), false, false, none, none⟩
  else if cfg.algo = "asac" then
    let m ← importedAgent cfg.algo
    return ⟨m, none, false, true, none, none⟩
  else if cfg.algo = "tac" then
    let m ← importedAgent cfg.algo
    return ⟨m, some (1/2), false, false, some "log-q", some (6/5)⟩
  else if cfg.algo = "atac" then
    let m ← importedAgent cfg.algo
    return ⟨m, none, false, true, some "log-q", some (6/5)⟩
  else
    let m ← importedAgent cfg.algo
    return ⟨m, none, false, false, none, none⟩

/-- One iteration of the evaluation block body (lines 145-153): run one
episode in evaluation mode, accumulate return/count/collision, and log the
per-episode scalar at step `episode - evaluation_eps + i`. -/
def evalStep (cfg : Config) (ag : AgentStub) (episode : Nat)
    (a : EvalAcc) (i : Nat) : EvalAcc :=
  let r := ag.run a.callModes.length
  { callModes := a.callModes ++ [true]
    eval_sum_returns := a.eval_sum_returns + r.ret
    eval_num_episodes := a.eval_num_episodes + 1
    eval_num_collision :=
      if r.collision then a.eval_num_collision + 1 else a.eval_num_collision
    events := a.events ++
      (if cfg.tensorboard then
        [Event.addScalar "Eval/EpisodeReturns" r.ret
          ((episode : Int) - (cfg.evaluation_eps : Int) + (i : Int))]
       else []) }

/-- The evaluation phase entered at a TRAIN to EVAL boundary
(lines 137-184), starting from the state `s` that already contains the
current training episode.  Emits the training collision rate and resets
the counter, runs `evaluation_eps` episodes in evaluation mode on a fresh
block aggregate, emits the block summary scalars and the console summary,
and saves a checkpoint when the block average reaches the threshold.
Returns the new loop state together with the computed
`eval_average_return`. -/
def evalPhase (cfg : Config) (ag : AgentStub) (timeO : Nat → Nat)
    (episode : Nat) (s : LoopState) : Except PyError (LoopState × ℚ) := do
  let events1 ←
    if cfg.tensorboard then do
      let cr ← pyDivNat s.train_num_collision cfg.eval_per_train
      pure (s.events ++ [Event.addScalar "Train/CollisionRate" cr (episode : Int)])
    else pure s.events
  let a0 : EvalAcc := ⟨s.callModes, 0, 0, 0, events1⟩
  let a := (List.range cfg.evaluation_eps).foldl (evalStep cfg ag episode) a0
  let eval_average_return := guardedAvg a.eval_sum_returns a.eval_num_episodes
  let events2 ←
    if cfg.tensorboard then do
      let cr ← pyDivNat a.eval_num_collision cfg.evaluation_eps
      pure (a.events ++
        [Event.addScalar "Eval/AverageReturns" eval_average_return (episode : Int),
         Event.addScalar "Eval/CollisionRate" cr (episode : Int)])
    else pure a.events
  let train_average_return := guardedAvg s.train_sum_returns s.train_num_episodes
  let cr2 ← pyDivNat a.eval_num_collision cfg.evaluation_eps
  let events3 := events2 ++
    [Event.printSummary s.train_num_steps s.train_num_episodes
      (pyRound2 train_average_return) a.eval_num_episodes
      (pyRound2 eval_average_return) (pyRound2 cr2)
      ag.loggerRepr (timeO episode)]
  let events4 :=
    if (cfg.threshold_return : ℚ) ≤ eval_average_return then
      events3 ++ [Event.saveCkpt (mkCkptPath cfg s.train_num_episodes
        (pyRound2 train_average_return) (pyRound2 eval_average_return))]
    else events3
  return (⟨a.callModes, s.train_num_steps, s.train_sum_returns,
           s.train_num_episodes, 0, events4⟩, eval_average_return)

/-- The training part of one episode of the outer loop (lines 116-133):
run one episode in learning mode, update the four training aggregates,
and log the per-episode training scalars. -/
def trainUpdate (cfg : Config) (ag : AgentStub) (episode : Nat)
    (s : LoopState) : LoopState :=
  let r := ag.run s.callModes.length
  let train_num_collision :=
    if r.collision then s.train_num_collision + 1 else s.train_num_collision
  let train_num_steps := s.train_num_steps + r.steps
  let train_sum_returns := s.train_sum_returns + r.ret
  let train_num_episodes := s.train_num_episodes + 1
  let train_average_return := guardedAvg train_sum_returns train_num_episodes
  { callModes := s.callModes ++ [false]
    train_num_steps := train_num_steps
    train_sum_returns := train_sum_returns
    train_num_episodes := train_num_episodes
    train_num_collision := train_num_collision
    events := s.events ++
      (if cfg.tensorboard then
        [Event.addScalar "Train/AverageReturns" train_average_return (episode : Int),
         Event.addScalar "Train/EpisodeReturns" r.ret (episode : Int)] ++
        (if cfg.algo = "asac" ∨ cfg.algo = "atac" then
          [Event.addScalar "Train/Alpha" (ag.alpha episode) (episode : Int)]
         else [])
       else []) }

/-- One full iteration of the outer loop (lines 114-184): the training
episode, then, when `episode > 0 and episode % eval_per_train == 0`, the
evaluation phase. -/
def trainEpisode (cfg : Config) (ag : AgentStub) (timeO : Nat → Nat)
    (s : LoopState) (episode : Nat) : Except PyError LoopState := do
  let s1 := trainUpdate cfg ag episode s
  if 0 < episode then
    let m ← pyModNat episode cfg.eval_per_train
    if m = 0 then
      let r ← evalPhase cfg ag timeO episode s1
      return r.1
    else
      return s1
  else
    return s1

/-- Folding the outer loop over a list of episode indices. -/
def runEpisodes (cfg : Config) (ag : AgentStub) (timeO : Nat → Nat)
    (s : LoopState) : List Nat → Except PyError LoopState
  | [] => .ok s
  | e :: es => do
      let s1 ← trainEpisode cfg ag timeO s e
      runEpisodes cfg ag timeO s1 es

/-- The initial loop state (lines 108-111). -/
def initState : LoopState :=
  ⟨[], 0, 0, 0, 0, []⟩

/-- The tensorboard run directory (lines 100-103); `timestamp` stands for
`datetime.datetime.now().strftime(...)`. -/
def dirNameOf (cfg : Config) (timestamp : String) : String :=
  "runs/" ++ cfg.env ++ "/" ++ cfg.algo ++ "_s_" ++ toString cfg.seed
    ++ "_t_" ++ timestamp

/-- Result of a completed run. -/
structure RunResult where
  ctorArgs : AgentCtorArgs
  dirName : Option String
  final : LoopState
deriving DecidableEq

/-- The whole of `main` (lines 58-184): construct the agent (a `NameError`
escapes here for unrecognised algorithm identifiers), create the writer
directory name, then run `training_eps` episodes numbered from 1.
`timeO e` is the elapsed wall-clock time printed at the evaluation
boundary of episode `e`; `timestamp` is the wall-clock tag of the writer
directory. -/
def program (cfg : Config) (ag : AgentStub) (timeO : Nat → Nat)
    (timestamp : String) : Except PyError RunResult := do
  let ctorArgs ← constructAgent cfg
  let dirName := if cfg.tensorboard then some (dirNameOf cfg timestamp) else none
  let final ← runEpisodes cfg ag timeO initState (List.range' 1 cfg.training_eps)
  return ⟨ctorArgs, dirName, final⟩

/-- The returns of `E` consecutive `agent.run` calls starting at call
index `base`. -/
def evalRets (ag : AgentStub) (base E : Nat) : List ℚ :=
  (List.range E).map fun i => (ag.run (base + i)).ret

/-- How many of `E` consecutive `agent.run` calls starting at call index
`base` report a collision. -/
def evalColls (ag : AgentStub) (base E : Nat) : Nat :=
  (List.range E).countP fun i => (ag.run (base + i)).collision

/-- The per-episode scalars logged by one evaluation block. -/
def evalScalars (cfg : Config) (ag : AgentStub) (episode base E : Nat) :
    List Event :=
  if cfg.tensorboard then
    (List.range E).map fun i =>
      Event.addScalar "Eval/EpisodeReturns" (ag.run (base + i)).ret
        ((episode : Int) - (cfg.evaluation_eps : Int) + (i : Int))
  else []

/-- The average return of one evaluation block, as the loop computes it:
guarded mean of the `E` episodic returns at call indices `base`,
`base + 1`, ... -/
def evalBlockAvg (ag : AgentStub) (base E : Nat) : ℚ :=
  guardedAvg (evalRets ag base E).sum E

theorem evalFold_char (cfg : Config) (ag : AgentStub) (episode : Nat)
    (E : Nat) (a : EvalAcc) :
    (List.range E).foldl (evalStep cfg ag episode) a =
      ⟨a.callModes ++ List.replicate E true,
       a.eval_sum_returns + (evalRets ag a.callModes.length E).sum,
       a.eval_num_episodes + E,
       a.eval_num_collision + evalColls ag a.callModes.length E,
       a.events ++ evalScalars cfg ag episode a.callModes.length E⟩ := by
  induction E with
  | zero =>
      simp [evalRets, evalColls, evalScalars]
  | succ E ih =>
      rw [List.range_succ, List.foldl_append, ih]
      simp only [List.foldl_cons, List.foldl_nil, evalStep]
      apply EvalAcc.ext <;>
        simp [evalRets, evalColls, evalScalars, List.range_succ,
          List.replicate_succ', List.append_assoc, List.countP_append,
          List.length_append, List.countP_cons, add_assoc, add_comm, add_left_comm]
      · split <;> omega
      · cases cfg.tensorboard <;> simp

/-- The events appended to the trace by one evaluation phase entered at
episode `episode` from state `s` (already containing the current training
episode). -/
def evalPhaseDelta (cfg : Config) (ag : AgentStub) (timeO : Nat → Nat)
    (episode : Nat) (s : LoopState) : List Event :=
  let E := cfg.evaluation_eps
  let base := s.callModes.length
  let avg := evalBlockAvg ag base E
  let trainAvg := guardedAvg s.train_sum_returns s.train_num_episodes
  (if cfg.tensorboard then
    [Event.addScalar "Train/CollisionRate"
      ((s.train_num_collision : ℚ) / (cfg.eval_per_train : ℚ)) (episode : Int)]
   else [])
  ++ evalScalars cfg ag episode base E
  ++ (if cfg.tensorboard then
    [Event.addScalar "Eval/AverageReturns" avg (episode : Int),
     Event.addScalar "Eval/CollisionRate"
       ((evalColls ag base E : ℚ) / (E : ℚ)) (episode : Int)]
   else [])
  ++ [Event.printSummary s.train_num_steps s.train_num_episodes
        (pyRound2 trainAvg) E (pyRound2 avg)
        (pyRound2 ((evalColls ag base E : ℚ) / (E : ℚ)))
        ag.loggerRepr (timeO episode)]
  ++ (if (cfg.threshold_return : ℚ) ≤ avg then
       [Event.saveCkpt (mkCkptPath cfg s.train_num_episodes
         (pyRound2 trainAvg) (pyRound2 avg))]
      else [])

theorem evalPhase_ok (cfg : Config) (ag : AgentStub) (timeO : Nat → Nat)
    (episode : Nat) (s : LoopState)
    (hC : cfg.eval_per_train ≠ 0) (hE : cfg.evaluation_eps ≠ 0) :
    evalPhase cfg ag timeO episode s =
      .ok (⟨s.callModes ++ List.replicate cfg.evaluation_eps true,
            s.train_num_steps, s.train_sum_returns, s.train_num_episodes, 0,
            s.events ++ evalPhaseDelta cfg ag timeO episode s⟩,
           evalBlockAvg ag s.callModes.length cfg.evaluation_eps) := by
  cases htb : cfg.tensorboard <;>
    simp [evalPhase, htb, pyDivNat, hC, hE, evalFold_char, evalPhaseDelta,
      evalBlockAvg, evalRets, Nat.pos_of_ne_zero hE, List.append_assoc,
      Bind.bind, Except.bind, Pure.pure, Except.pure] <;>
    split <;> simp [List.append_assoc]

theorem evalPhase_divzero (cfg : Config) (ag : AgentStub) (timeO : Nat → Nat)
    (episode : Nat) (s : LoopState) (hE : cfg.evaluation_eps = 0) :
    evalPhase cfg ag timeO episode s = .error .zeroDivisionError := by
  cases htb : cfg.tensorboard
  · simp [evalPhase, htb, pyDivNat, hE, evalFold_char]
  · by_cases hC : cfg.eval_per_train = 0 <;>
      simp [evalPhase, htb, pyDivNat, hE, hC, evalFold_char,
        Bind.bind, Except.bind, Pure.pure, Except.pure]

/-- The per-episode training scalars logged at lines 129-133, for episode
result `r` and the just-recomputed running average `avg`. -/
def trainScalars (cfg : Config) (ag : AgentStub) (episode : Nat)
    (r : EpisodeResult) (avg : ℚ) : List Event :=
  if cfg.tensorboard then
    [Event.addScalar "Train/AverageReturns" avg (episode : Int),
     Event.addScalar "Train/EpisodeReturns" r.ret (episode : Int)] ++
    (if cfg.algo = "asac" ∨ cfg.algo = "atac" then
      [Event.addScalar "Train/Alpha" (ag.alpha episode) (episode : Int)]
     else [])
  else []

theorem trainUpdate_char (cfg : Config) (ag : AgentStub) (episode : Nat)
    (s : LoopState) :
    trainUpdate cfg ag episode s =
      ⟨s.callModes ++ [false],
       s.train_num_steps + (ag.run s.callModes.length).steps,
       s.train_sum_returns + (ag.run s.callModes.length).ret,
       s.train_num_episodes + 1,
       (if (ag.run s.callModes.length).collision then
         s.train_num_collision + 1 else s.train_num_collision),
       s.events ++ trainScalars cfg ag episode (ag.run s.callModes.length)
         (guardedAvg (s.train_sum_returns + (ag.run s.callModes.length).ret)
           (s.train_num_episodes + 1))⟩ := rfl

theorem trainUpdate_events (cfg : Config) (ag : AgentStub) (episode : Nat)
    (s : LoopState) :
    (trainUpdate cfg ag episode s).events = s.events ++
      trainScalars cfg ag episode (ag.run s.callModes.length)
        (guardedAvg (s.train_sum_returns + (ag.run s.callModes.length).ret)
          (s.train_num_episodes + 1)) := by
  rw [trainUpdate_char]

theorem trainUpdate_coll (cfg : Config) (ag : AgentStub) (episode : Nat)
    (s : LoopState) :
    (trainUpdate cfg ag episode s).train_num_collision =
      (if (ag.run s.callModes.length).collision then
        s.train_num_collision + 1 else s.train_num_collision) := by
  rw [trainUpdate_char]

theorem trainUpdate_callModes (cfg : Config) (ag : AgentStub)
    (episode : Nat) (s : LoopState) :
    (trainUpdate cfg ag episode s).callModes = s.callModes ++ [false] := by
  rw [trainUpdate_char]

theorem trainEpisode_modzero (cfg : Config) (ag : AgentStub)
    (timeO : Nat → Nat) (s : LoopState) (e : Nat)
    (he : 0 < e) (hC : cfg.eval_per_train = 0) :
    trainEpisode cfg ag timeO s e = .error .zeroDivisionError := by
  simp [trainEpisode, pyModNat, hC, he, Bind.bind, Except.bind]

theorem trainEpisode_noBoundary (cfg : Config) (ag : AgentStub)
    (timeO : Nat → Nat) (s : LoopState) (e : Nat)
    (he : 0 < e) (hC : cfg.eval_per_train ≠ 0)
    (hm : e % cfg.eval_per_train ≠ 0) :
    trainEpisode cfg ag timeO s e = .ok (trainUpdate cfg ag e s) := by
  simp [trainEpisode, pyModNat, hC, he, hm, Bind.bind, Except.bind,
    Pure.pure, Except.pure]

theorem trainEpisode_boundary (cfg : Config) (ag : AgentStub)
    (timeO : Nat → Nat) (s : LoopState) (e : Nat)
    (he : 0 < e) (hC : cfg.eval_per_train ≠ 0)
    (hm : e % cfg.eval_per_train = 0) :
    trainEpisode cfg ag timeO s e =
      (evalPhase cfg ag timeO e (trainUpdate cfg ag e s)).map Prod.fst := by
  simp only [trainEpisode, pyModNat, hC, if_neg, he, if_pos, hm]
  cases h : evalPhase cfg ag timeO e (trainUpdate cfg ag e s) <;>
    simp [h, Except.map, he, Bind.bind, Except.bind, Pure.pure, Except.pure]

theorem runEpisodes_nil (cfg : Config) (ag : AgentStub) (timeO : Nat → Nat)
    (s : LoopState) : runEpisodes cfg ag timeO s [] = .ok s := rfl

theorem runEpisodes_cons (cfg : Config) (ag : AgentStub) (timeO : Nat → Nat)
    (s : LoopState) (e : Nat) (es : List Nat) :
    runEpisodes cfg ag timeO s (e :: es) =
      (trainEpisode cfg ag timeO s e).bind
        (fun s1 => runEpisodes cfg ag timeO s1 es) := by
  cases h : trainEpisode cfg ag timeO s e <;>
    simp [runEpisodes, h, Except.bind, Bind.bind]

theorem runEpisodes_append (cfg : Config) (ag : AgentStub)
    (timeO : Nat → Nat) (s : LoopState) (l1 l2 : List Nat) :
    runEpisodes cfg ag timeO s (l1 ++ l2) =
      (runEpisodes cfg ag timeO s l1).bind
        (fun s1 => runEpisodes cfg ag timeO s1 l2) := by
  induction l1 generalizing s with
  | nil => simp [runEpisodes_nil, Except.bind]
  | cons e es ih =>
      rw [List.cons_append, runEpisodes_cons, runEpisodes_cons]
      cases h : trainEpisode cfg ag timeO s e <;>
        simp [Except.bind, ih]

/-- Recognises the console summary block printed once per evaluation
phase. -/
def isSummary : Event → Bool
  | .printSummary _ _ _ _ _ _ _ _ => true
  | _ => false

/-- Recognises a checkpoint save. -/
def isCkpt : Event → Bool
  | .saveCkpt _ => true
  | _ => false

/-- Number of evaluation blocks recorded in a trace: one console summary
is printed per block, unconditionally. -/
def countSummaries (evs : List Event) : Nat :=
  evs.countP isSummary

/-- Number of checkpoint saves recorded in a trace. -/
def countCkpts (evs : List Event) : Nat :=
  evs.countP isCkpt

theorem countSummaries_trainScalars (cfg : Config) (ag : AgentStub)
    (episode : Nat) (r : EpisodeResult) (avg : ℚ) :
    countSummaries (trainScalars cfg ag episode r avg) = 0 := by
  unfold countSummaries trainScalars
  split
  · split <;> simp [isSummary]
  · rfl

theorem countCkpts_trainScalars (cfg : Config) (ag : AgentStub)
    (episode : Nat) (r : EpisodeResult) (avg : ℚ) :
    countCkpts (trainScalars cfg ag episode r avg) = 0 := by
  unfold countCkpts trainScalars
  split
  · split <;> simp [isCkpt]
  · rfl

theorem countSummaries_evalScalars (cfg : Config) (ag : AgentStub)
    (episode base E : Nat) :
    countSummaries (evalScalars cfg ag episode base E) = 0 := by
  unfold countSummaries evalScalars
  split
  · rw [List.countP_eq_zero]
    intro a ha
    obtain ⟨i, _, rfl⟩ := List.mem_map.mp ha
    simp [isSummary]
  · rfl

theorem countCkpts_evalScalars (cfg : Config) (ag : AgentStub)
    (episode base E : Nat) :
    countCkpts (evalScalars cfg ag episode base E) = 0 := by
  unfold countCkpts evalScalars
  split
  · rw [List.countP_eq_zero]
    intro a ha
    obtain ⟨i, _, rfl⟩ := List.mem_map.mp ha
    simp [isCkpt]
  · rfl

theorem countSummaries_evalPhaseDelta (cfg : Config) (ag : AgentStub)
    (timeO : Nat → Nat) (episode : Nat) (s : LoopState) :
    countSummaries (evalPhaseDelta cfg ag timeO episode s) = 1 := by
  unfold evalPhaseDelta
  simp only [countSummaries, List.countP_append]
  rw [show List.countP isSummary (evalScalars cfg ag episode
      s.callModes.length cfg.evaluation_eps) =
    countSummaries (evalScalars cfg ag episode s.callModes.length
      cfg.evaluation_eps) from rfl]
  rw [countSummaries_evalScalars]
  cases cfg.tensorboard <;> simp [isSummary] <;> split <;> simp [isSummary]

theorem countCkpts_evalPhaseDelta (cfg : Config) (ag : AgentStub)
    (timeO : Nat → Nat) (episode : Nat) (s : LoopState) :
    countCkpts (evalPhaseDelta cfg ag timeO episode s) =
      (if (cfg.threshold_return : ℚ) ≤
          evalBlockAvg ag s.callModes.length cfg.evaluation_eps
       then 1 else 0) := by
  unfold evalPhaseDelta
  simp only [countCkpts, List.countP_append]
  rw [show List.countP isCkpt (evalScalars cfg ag episode
      s.callModes.length cfg.evaluation_eps) =
    countCkpts (evalScalars cfg ag episode s.callModes.length
      cfg.evaluation_eps) from rfl]
  rw [countCkpts_evalScalars]
  cases cfg.tensorboard <;> simp [isCkpt] <;> split <;> simp [isCkpt]

theorem countMultiples_range' (N C : Nat) :
    (List.range' 1 N).countP (fun e => e % C == 0) = N / C := by
  induction N with
  | zero => simp
  | succ N ih =>
      rw [List.range'_concat, List.countP_append, ih, Nat.succ_div]
      simp only [List.countP_cons, List.countP_nil]
      rw [show 1 + 1 * N = N + 1 by omega]
      by_cases h : (N + 1) % C = 0 <;>
        simp [h, Nat.dvd_iff_mod_eq_zero]

theorem countSummaries_trainEpisode (cfg : Config) (ag : AgentStub)
    (timeO : Nat → Nat) (s : LoopState) (e : Nat) (s1 : LoopState)
    (he : 0 < e) (h : trainEpisode cfg ag timeO s e = .ok s1) :
    countSummaries s1.events = countSummaries s.events +
      (if e % cfg.eval_per_train = 0 then 1 else 0) := by
  by_cases hC : cfg.eval_per_train = 0
  · rw [trainEpisode_modzero cfg ag timeO s e he hC] at h
    cases h
  · by_cases hm : e % cfg.eval_per_train = 0
    · rw [trainEpisode_boundary cfg ag timeO s e he hC hm] at h
      by_cases hE : cfg.evaluation_eps = 0
      · rw [evalPhase_divzero cfg ag timeO e _ hE] at h
        cases h
      · rw [evalPhase_ok cfg ag timeO e _ hC hE] at h
        simp only [Except.map, Except.ok.injEq] at h
        subst h
        rw [if_pos hm]
        rw [trainUpdate_char]
        simp only [countSummaries, List.countP_append]
        have h1 := countSummaries_trainScalars cfg ag e
          (ag.run s.callModes.length)
          (guardedAvg (s.train_sum_returns + (ag.run s.callModes.length).ret)
            (s.train_num_episodes + 1))
        have h2 := countSummaries_evalPhaseDelta cfg ag timeO e
          (trainUpdate cfg ag e s)
        rw [trainUpdate_char] at h2
        simp only [countSummaries] at h1 h2
        omega
    · rw [trainEpisode_noBoundary cfg ag timeO s e he hC hm] at h
      cases h
      rw [if_neg hm]
      rw [trainUpdate_char]
      simp only [countSummaries, List.countP_append]
      have h1 := countSummaries_trainScalars cfg ag e
        (ag.run s.callModes.length)
        (guardedAvg (s.train_sum_returns + (ag.run s.callModes.length).ret)
          (s.train_num_episodes + 1))
      simp only [countSummaries] at h1
      omega

theorem countSummaries_runEpisodes (cfg : Config) (ag : AgentStub)
    (timeO : Nat → Nat) :
    ∀ (es : List Nat) (s s1 : LoopState), (∀ e ∈ es, 0 < e) →
    runEpisodes cfg ag timeO s es = .ok s1 →
    countSummaries s1.events = countSummaries s.events +
      es.countP (fun e => e % cfg.eval_per_train == 0) := by
  intro es
  induction es with
  | nil =>
      intro s s1 _ h
      cases h
      simp
  | cons e es ih =>
      intro s s1 hpos h
      rw [runEpisodes_cons] at h
      cases h1 : trainEpisode cfg ag timeO s e with
      | error err => rw [h1] at h; cases h
      | ok mid =>
          rw [h1] at h
          simp only [Except.bind] at h
          have hmid := countSummaries_trainEpisode cfg ag timeO s e mid
            (hpos e (List.mem_cons_self e es)) h1
          have htail := ih mid s1
            (fun x hx => hpos x (List.mem_cons_of_mem e hx)) h
          rw [htail, hmid, List.countP_cons]
          by_cases hm : e % cfg.eval_per_train = 0 <;> simp [hm] <;> omega

/-- A deterministic stub agent whose episodes take one step, return 0 and
never collide. -/
def zeroAgent : AgentStub :=
  ⟨fun _ => ⟨1, 0, false⟩, fun _ => 0, "logger"⟩

/-- A small concrete configuration used to instantiate the theorems. -/
def cfgW : Config :=
  ⟨"sumo", "td3", 0, 4, 2, 2, 200, 15, true, 0, ""⟩

/-- The final state of the loop on `cfgW` with the zero agent. -/
def finalW : LoopState :=
  (runEpisodes cfgW zeroAgent (fun _ => 0) initState
    (List.range' 1 cfgW.training_eps)).toOption.getD initState

/-- C2: for every configured training episode count N and evaluation
cadence C >= 1, a completed run of the training loop executes exactly
floor(N / C) evaluation blocks; each block prints exactly one console
summary unconditionally, so the number of blocks is the number of summary
events in the final trace. -/
theorem eval_block_count_eq_floor_div (cfg : Config) (ag : AgentStub)
    (timeO : Nat → Nat) (s1 : LoopState)
    (hC : 1 ≤ cfg.eval_per_train)
    (h : runEpisodes cfg ag timeO initState
      (List.range' 1 cfg.training_eps) = .ok s1) :
    countSummaries s1.events = cfg.training_eps / cfg.eval_per_train := by
  have hc := countSummaries_runEpisodes cfg ag timeO
    (List.range' 1 cfg.training_eps) initState s1
    (fun e he => by
      have := List.mem_range'_1.mp he
      omega) h
  rw [hc, countMultiples_range']
  simp [countSummaries, initState]

theorem eval_block_count_eq_floor_div_witness :
    1 ≤ cfgW.eval_per_train ∧
    countSummaries finalW.events = cfgW.training_eps / cfgW.eval_per_train :=
  ⟨by decide,
   eval_block_count_eq_floor_div cfgW zeroAgent (fun _ => 0) finalW
     (by decide) (by rfl)⟩

theorem constructAgent_nameError (cfg : Config)
    (h : importAgent cfg.algo = none) :
    constructAgent cfg = .error .nameError := by
  have hi : importedAgent cfg.algo = .error .nameError := by
    rw [importedAgent, h]
  simp only [constructAgent, hi, Bind.bind, Except.bind]
  split
  · rfl
  · split
    · rfl
    · split
      · rfl
      · split
        · rfl
        · split <;> rfl

/-- C1 counterexample: with the unrecognised algorithm identifier "foo",
the import selector silently resolves nothing (no branch fires, no error)
and the program fails with a NameError at agent construction, which is not
a configuration error. -/
theorem unknown_algo_not_config_error :
    importAgent "foo" = none ∧
    program { cfgW with algo := "foo" } zeroAgent (fun _ => 0) "ts" =
      .error .nameError ∧
    PyError.nameError ≠ PyError.configError :=
  ⟨by decide, by rfl, by decide⟩

/-- C1 amended: for every algorithm identifier outside the enumeration,
the import selector silently binds nothing and the program fails before
any episode runs, but with a NameError raised at agent construction inside
main, not with a configuration error reported at startup. -/
theorem unknown_algo_name_error (cfg : Config) (ag : AgentStub)
    (timeO : Nat → Nat) (ts : String)
    (h : importAgent cfg.algo = none) :
    program cfg ag timeO ts = .error .nameError := by
  simp [program, constructAgent_nameError cfg h, Bind.bind, Except.bind]

theorem unknown_algo_name_error_witness :
    importAgent "foo" = none ∧
    program { cfgW with algo := "foo" } zeroAgent (fun _ => 1) "t2" =
      .error .nameError :=
  ⟨by decide,
   unknown_algo_name_error { cfgW with algo := "foo" } zeroAgent
     (fun _ => 1) "t2" (by decide)⟩

/-- C10: the average-return computations are guarded against a zero
episode count (yielding 0), while the collision-rate divisions and the
evaluation trigger are not: with evaluation_eps = 0 every evaluation phase
that is reached raises ZeroDivisionError (whether or not tensorboard
logging is on), and with eval_per_train = 0 the trigger modulo raises
ZeroDivisionError on every training episode. -/
theorem division_guards (cfg : Config) (ag : AgentStub) (timeO : Nat → Nat) :
    (∀ q : ℚ, guardedAvg q 0 = 0) ∧
    (cfg.evaluation_eps = 0 →
      ∀ (episode : Nat) (s : LoopState),
        evalPhase cfg ag timeO episode s = .error .zeroDivisionError) ∧
    (cfg.eval_per_train = 0 →
      ∀ (s : LoopState) (e : Nat), 0 < e →
        trainEpisode cfg ag timeO s e = .error .zeroDivisionError) := by
  refine ⟨fun q => by simp [guardedAvg],
    fun hE episode s => evalPhase_divzero cfg ag timeO episode s hE,
    fun hC s e he => trainEpisode_modzero cfg ag timeO s e he hC⟩

theorem division_guards_witness :
    guardedAvg 5 0 = 0 ∧
    evalPhase { cfgW with eval_per_train := 0, evaluation_eps := 0 }
      zeroAgent (fun _ => 0) 2 initState = .error .zeroDivisionError ∧
    trainEpisode { cfgW with eval_per_train := 0, evaluation_eps := 0 }
      zeroAgent (fun _ => 0) initState 1 = .error .zeroDivisionError :=
  ⟨(division_guards { cfgW with eval_per_train := 0, evaluation_eps := 0 }
      zeroAgent (fun _ => 0)).1 5,
   (division_guards { cfgW with eval_per_train := 0, evaluation_eps := 0 }
      zeroAgent (fun _ => 0)).2.1 (by decide) 2 initState,
   (division_guards { cfgW with eval_per_train := 0, evaluation_eps := 0 }
      zeroAgent (fun _ => 0)).2.2 (by decide) initState 1 (by decide)⟩

/-- A stub agent whose episodes report a negative episodic return. -/
def negAgent : AgentStub :=
  ⟨fun _ => ⟨1, -1, false⟩, fun _ => 0, "logger"⟩

/-- C8 counterexample: the sum-of-returns field of the training aggregate
is not monotonically non-decreasing for every sequence of episode results:
one training episode with episodic return -1 strictly decreases it. -/
theorem sum_returns_can_decrease :
    (trainUpdate cfgW negAgent 1 initState).train_sum_returns <
      initState.train_sum_returns := by
  rw [trainUpdate_char]
  simp [initState, negAgent]

/-- C8 amended: within a phase, the step, episode and collision counters
of the running aggregate are monotonically non-decreasing from one episode
to the next until the reset, and the sum of returns is non-decreasing
whenever the episodic return delivered by the agent is non-negative (a
negative return makes it decrease). -/
theorem aggregates_monotone (cfg : Config) (ag : AgentStub) :
    (∀ (episode : Nat) (s : LoopState),
      s.train_num_steps ≤ (trainUpdate cfg ag episode s).train_num_steps ∧
      s.train_num_episodes ≤
        (trainUpdate cfg ag episode s).train_num_episodes ∧
      s.train_num_collision ≤
        (trainUpdate cfg ag episode s).train_num_collision ∧
      (0 ≤ (ag.run s.callModes.length).ret →
        s.train_sum_returns ≤
          (trainUpdate cfg ag episode s).train_sum_returns)) ∧
    (∀ (episode : Nat) (a : EvalAcc) (i : Nat),
      a.eval_num_episodes ≤ (evalStep cfg ag episode a i).eval_num_episodes ∧
      a.eval_num_collision ≤
        (evalStep cfg ag episode a i).eval_num_collision ∧
      (0 ≤ (ag.run a.callModes.length).ret →
        a.eval_sum_returns ≤ (evalStep cfg ag episode a i).eval_sum_returns)) := by
  constructor
  · intro episode s
    rw [trainUpdate_char]
    refine ⟨by simp, by simp, ?_, ?_⟩
    · dsimp only
      split <;> omega
    · intro h
      dsimp only
      linarith
  · intro episode a i
    simp only [evalStep]
    refine ⟨by simp, ?_, ?_⟩
    · split <;> omega
    · intro h
      linarith

theorem aggregates_monotone_witness :
    initState.train_sum_returns ≤
      (trainUpdate cfgW zeroAgent 1 initState).train_sum_returns ∧
    (⟨[], 0, 0, 0, []⟩ : EvalAcc).eval_sum_returns ≤
      (evalStep cfgW zeroAgent 1 ⟨[], 0, 0, 0, []⟩ 0).eval_sum_returns :=
  ⟨((aggregates_monotone cfgW zeroAgent).1 1 initState).2.2.2 (by decide),
   ((aggregates_monotone cfgW zeroAgent).2 1 ⟨[], 0, 0, 0, []⟩ 0).2.2
     (by decide)⟩

/-- C5: at every TRAIN to EVAL boundary (with tensorboard logging on, as
it is by default), the events appended by the episode are the per-episode
training scalars followed by the evaluation-phase delta, whose first
emitted event is Train/CollisionRate carrying (number of collision flags
accumulated since the previous boundary, including this episode) divided
by eval_per_train; and the training collision counter is 0 afterwards. -/
theorem collision_rate_at_boundary (cfg : Config) (ag : AgentStub)
    (timeO : Nat → Nat) (s : LoopState) (e : Nat) (s1 : LoopState)
    (he : 0 < e) (hm : e % cfg.eval_per_train = 0)
    (htb : cfg.tensorboard = true)
    (h : trainEpisode cfg ag timeO s e = .ok s1) :
    s1.events = s.events ++
      trainScalars cfg ag e (ag.run s.callModes.length)
        (guardedAvg (s.train_sum_returns + (ag.run s.callModes.length).ret)
          (s.train_num_episodes + 1)) ++
      evalPhaseDelta cfg ag timeO e (trainUpdate cfg ag e s) ∧
    (evalPhaseDelta cfg ag timeO e (trainUpdate cfg ag e s)).head? =
      some (Event.addScalar "Train/CollisionRate"
        (((if (ag.run s.callModes.length).collision then
             s.train_num_collision + 1 else s.train_num_collision : Nat) : ℚ) /
          (cfg.eval_per_train : ℚ)) (e : Int)) ∧
    s1.train_num_collision = 0 := by
  have hC : cfg.eval_per_train ≠ 0 := by
    intro h0
    rw [h0, Nat.mod_zero] at hm
    omega
  rw [trainEpisode_boundary cfg ag timeO s e he hC hm] at h
  by_cases hE : cfg.evaluation_eps = 0
  · rw [evalPhase_divzero cfg ag timeO e _ hE] at h
    cases h
  · rw [evalPhase_ok cfg ag timeO e _ hC hE] at h
    simp only [Except.map, Except.ok.injEq] at h
    subst h
    refine ⟨?_, ?_, rfl⟩
    · show (trainUpdate cfg ag e s).events ++
        evalPhaseDelta cfg ag timeO e (trainUpdate cfg ag e s) = _
      rw [trainUpdate_events]
    · simp [evalPhaseDelta, htb, trainUpdate_coll]

/-- C6: an episode of the outer loop appends a checkpoint save to the
trace exactly when it is an evaluation boundary and the just-computed
evaluation average return is greater than or equal to the configured
threshold (the comparison is inclusive); episodes that trigger no
evaluation never save a checkpoint. -/
theorem checkpoint_iff_threshold (cfg : Config) (ag : AgentStub)
    (timeO : Nat → Nat) (s : LoopState) (e : Nat) (s1 : LoopState)
    (he : 0 < e) (h : trainEpisode cfg ag timeO s e = .ok s1) :
    countCkpts s1.events = countCkpts s.events +
      (if e % cfg.eval_per_train = 0 ∧
          (cfg.threshold_return : ℚ) ≤
            evalBlockAvg ag (s.callModes.length + 1) cfg.evaluation_eps
       then 1 else 0) := by
  by_cases hC : cfg.eval_per_train = 0
  · rw [trainEpisode_modzero cfg ag timeO s e he hC] at h
    cases h
  · by_cases hm : e % cfg.eval_per_train = 0
    · rw [trainEpisode_boundary cfg ag timeO s e he hC hm] at h
      by_cases hE : cfg.evaluation_eps = 0
      · rw [evalPhase_divzero cfg ag timeO e _ hE] at h
        cases h
      · rw [evalPhase_ok cfg ag timeO e _ hC hE] at h
        simp only [Except.map, Except.ok.injEq] at h
        subst h
        have h2 := countCkpts_evalPhaseDelta cfg ag timeO e
          (trainUpdate cfg ag e s)
        have h1 := countCkpts_trainScalars cfg ag e
          (ag.run s.callModes.length)
          (guardedAvg (s.train_sum_returns + (ag.run s.callModes.length).ret)
            (s.train_num_episodes + 1))
        have hlen : (trainUpdate cfg ag e s).callModes.length =
            s.callModes.length + 1 := by
          rw [trainUpdate_char]
          simp
        rw [hlen] at h2
        show countCkpts ((trainUpdate cfg ag e s).events ++
          evalPhaseDelta cfg ag timeO e (trainUpdate cfg ag e s)) = _
        rw [trainUpdate_events]
        simp only [countCkpts, List.countP_append] at h1 h2 ⊢
        rw [h2, hm]
        simp only [true_and]
        omega
    · rw [trainEpisode_noBoundary cfg ag timeO s e he hC hm] at h
      cases h
      rw [if_neg (fun hh => hm hh.1)]
      rw [trainUpdate_events]
      have h1 := countCkpts_trainScalars cfg ag e
        (ag.run s.callModes.length)
        (guardedAvg (s.train_sum_returns + (ag.run s.callModes.length).ret)
          (s.train_num_episodes + 1))
      simp only [countCkpts, List.countP_append] at h1 ⊢
      omega

/-- The state after one boundary episode of `cfgW` with the zero agent. -/
def bdW : LoopState :=
  (trainEpisode cfgW zeroAgent (fun _ => 0) initState 2).toOption.getD initState

theorem collision_rate_at_boundary_witness :
    bdW.train_num_collision = 0 ∧
    (evalPhaseDelta cfgW zeroAgent (fun _ => 0) 2
        (trainUpdate cfgW zeroAgent 2 initState)).head? =
      some (Event.addScalar "Train/CollisionRate" 0 2) := by
  have h := collision_rate_at_boundary cfgW zeroAgent (fun _ => 0) initState 2
    bdW (by decide) (by decide) (by rfl) (by rfl)
  exact ⟨h.2.2, by simpa [zeroAgent, initState] using h.2.1⟩

/-- A stub agent whose episodes all return exactly 15, the default
threshold. -/
def agent15 : AgentStub :=
  ⟨fun _ => ⟨1, 15, false⟩, fun _ => 0, "logger"⟩

/-- The state after one boundary episode of `cfgW` with `agent15`. -/
def ck15 : LoopState :=
  (trainEpisode cfgW agent15 (fun _ => 0) initState 2).toOption.getD initState

theorem checkpoint_iff_threshold_witness :
    2 % cfgW.eval_per_train = 0 ∧
    (cfgW.threshold_return : ℚ) ≤
      evalBlockAvg agent15 (initState.callModes.length + 1)
        cfgW.evaluation_eps ∧
    countCkpts ck15.events = countCkpts initState.events + 1 := by
  have hcond : (cfgW.threshold_return : ℚ) ≤
      evalBlockAvg agent15 (initState.callModes.length + 1)
        cfgW.evaluation_eps := by
    simp [evalBlockAvg, evalRets, guardedAvg, agent15, cfgW, initState,
      List.range_succ]
  have h := checkpoint_iff_threshold cfgW agent15 (fun _ => 0) initState 2
    ck15 (by decide) (by rfl)
  rw [if_pos ⟨by decide, hcond⟩] at h
  exact ⟨by decide, hcond, h⟩

/-- The episodic returns of the learning-mode (training) calls among the
first `modes.length` agent calls, in call order: the calls whose
`eval_mode` flag was false. -/
def trainReturnsOf (ag : AgentStub) (modes : List Bool) : List ℚ :=
  ((List.range modes.length).filter (fun i => !(modes.getD i true))).map
    (fun i => (ag.run i).ret)

theorem trainReturnsOf_append (ag : AgentStub) (m : List Bool) (b : Bool) :
    trainReturnsOf ag (m ++ [b]) =
      trainReturnsOf ag m ++
        (if b then [] else [(ag.run m.length).ret]) := by
  unfold trainReturnsOf
  rw [List.length_append, List.length_singleton, List.range_succ,
    List.filter_append]
  have hcong : List.filter (fun i => !((m ++ [b]).getD i true))
      (List.range m.length) =
      List.filter (fun i => !(m.getD i true)) (List.range m.length) := by
    apply List.filter_congr
    intro i hi
    rw [List.getD_append _ _ _ _ (List.mem_range.mp hi)]
  rw [hcong, List.map_append]
  congr 1
  have hb : (m ++ [b]).getD m.length true = b := by
    rw [List.getD_append_right _ _ _ _ (le_refl _)]
    simp
  cases b <;> simp [hb]

theorem trainReturnsOf_replicate_true (ag : AgentStub) (m : List Bool)
    (E : Nat) :
    trainReturnsOf ag (m ++ List.replicate E true) = trainReturnsOf ag m := by
  induction E generalizing m with
  | zero => simp
  | succ E ih =>
      rw [List.replicate_succ, show m ++ (true :: List.replicate E true) =
        (m ++ [true]) ++ List.replicate E true by simp, ih,
        trainReturnsOf_append]
      simp

/-- The loop invariant tying the training aggregates to the learning-mode
calls recorded in `callModes`. -/
def TrainInv (ag : AgentStub) (s : LoopState) : Prop :=
  s.train_num_episodes = (trainReturnsOf ag s.callModes).length ∧
  s.train_sum_returns = (trainReturnsOf ag s.callModes).sum

theorem trainInv_trainUpdate (cfg : Config) (ag : AgentStub) (episode : Nat)
    (s : LoopState) (h : TrainInv ag s) :
    TrainInv ag (trainUpdate cfg ag episode s) := by
  obtain ⟨h1, h2⟩ := h
  rw [TrainInv, trainUpdate_char]
  simp only [trainReturnsOf_append, if_neg Bool.false_ne_true,
    Bool.false_eq_true, if_false, List.length_append, List.sum_append]
  constructor
  · simp [h1]
  · simp [h2]

theorem trainInv_trainEpisode (cfg : Config) (ag : AgentStub)
    (timeO : Nat → Nat) (s : LoopState) (e : Nat) (s1 : LoopState)
    (he : 0 < e) (h : trainEpisode cfg ag timeO s e = .ok s1)
    (hInv : TrainInv ag s) :
    TrainInv ag s1 ∧ s1.train_num_episodes = s.train_num_episodes + 1 := by
  by_cases hC : cfg.eval_per_train = 0
  · rw [trainEpisode_modzero cfg ag timeO s e he hC] at h
    cases h
  · by_cases hm : e % cfg.eval_per_train = 0
    · rw [trainEpisode_boundary cfg ag timeO s e he hC hm] at h
      by_cases hE : cfg.evaluation_eps = 0
      · rw [evalPhase_divzero cfg ag timeO e _ hE] at h
        cases h
      · rw [evalPhase_ok cfg ag timeO e _ hC hE] at h
        simp only [Except.map, Except.ok.injEq] at h
        subst h
        have hu := trainInv_trainUpdate cfg ag e s hInv
        obtain ⟨h1, h2⟩ := hu
        refine ⟨⟨?_, ?_⟩, ?_⟩
        · show (trainUpdate cfg ag e s).train_num_episodes = _
          rw [h1]
          rw [trainReturnsOf_replicate_true]
        · show (trainUpdate cfg ag e s).train_sum_returns = _
          rw [h2]
          rw [trainReturnsOf_replicate_true]
        · show (trainUpdate cfg ag e s).train_num_episodes = _
          rw [trainUpdate_char]
    · rw [trainEpisode_noBoundary cfg ag timeO s e he hC hm] at h
      cases h
      refine ⟨trainInv_trainUpdate cfg ag e s hInv, ?_⟩
      rw [trainUpdate_char]

theorem trainInv_runEpisodes (cfg : Config) (ag : AgentStub)
    (timeO : Nat → Nat) :
    ∀ (es : List Nat) (s s1 : LoopState), (∀ e ∈ es, 0 < e) →
    runEpisodes cfg ag timeO s es = .ok s1 → TrainInv ag s →
    TrainInv ag s1 ∧
      s1.train_num_episodes = s.train_num_episodes + es.length := by
  intro es
  induction es with
  | nil =>
      intro s s1 _ h hInv
      cases h
      exact ⟨hInv, by simp⟩
  | cons e es ih =>
      intro s s1 hpos h hInv
      rw [runEpisodes_cons] at h
      cases h1 : trainEpisode cfg ag timeO s e with
      | error err => rw [h1] at h; cases h
      | ok mid =>
          rw [h1] at h
          simp only [Except.bind] at h
          have hmid := trainInv_trainEpisode cfg ag timeO s e mid
            (hpos e (List.mem_cons_self e es)) h1 hInv
          have htail := ih mid s1
            (fun x hx => hpos x (List.mem_cons_of_mem e hx)) h hmid.1
          refine ⟨htail.1, ?_⟩
          rw [htail.2, hmid.2, List.length_cons]
          omega

/-- C3 amended: after the k-th training episode (k >= 1) of a completed
run, the computed training average return equals the arithmetic mean of
the k episodic returns of the learning-mode calls (the training episodes),
not of the first k agent.run calls overall. -/
theorem train_average_is_mean_of_train_returns (cfg : Config)
    (ag : AgentStub) (timeO : Nat → Nat) (k : Nat) (s1 : LoopState)
    (hk : 1 ≤ k)
    (h : runEpisodes cfg ag timeO initState (List.range' 1 k) = .ok s1) :
    (trainReturnsOf ag s1.callModes).length = k ∧
    guardedAvg s1.train_sum_returns s1.train_num_episodes =
      (trainReturnsOf ag s1.callModes).sum / (k : ℚ) := by
  have hInv0 : TrainInv ag initState := ⟨rfl, rfl⟩
  have hr := trainInv_runEpisodes cfg ag timeO (List.range' 1 k) initState s1
    (fun e he => by have := List.mem_range'_1.mp he; omega) h hInv0
  obtain ⟨⟨h1, h2⟩, h3⟩ := hr
  rw [List.length_range'] at h3
  have hle : s1.train_num_episodes = k := by
    rw [h3]
    show 0 + k = k
    omega
  refine ⟨by rw [← h1, hle], ?_⟩
  rw [guardedAvg, if_pos (by omega : 0 < s1.train_num_episodes), h2, hle]

theorem train_average_is_mean_of_train_returns_witness :
    (trainReturnsOf zeroAgent finalW.callModes).length = 4 ∧
    guardedAvg finalW.train_sum_returns finalW.train_num_episodes =
      (trainReturnsOf zeroAgent finalW.callModes).sum / (4 : ℚ) :=
  train_average_is_mean_of_train_returns cfgW zeroAgent (fun _ => 0) 4
    finalW (by omega) (by rfl)

/-- A stub agent whose i-th call returns the episodic return i. -/
def agIdx : AgentStub :=
  ⟨fun i => ⟨1, (i : ℚ), false⟩, fun _ => 0, "logger"⟩

/-- A configuration with cadence 1 and one evaluation episode per block. -/
def cfgX : Config :=
  ⟨"sumo", "td3", 0, 2, 1, 1, 200, 15, false, 0, ""⟩

/-- The final loop state of `cfgX` with `agIdx`. -/
def finalX : LoopState :=
  (runEpisodes cfgX agIdx (fun _ => 0) initState
    (List.range' 1 2)).toOption.getD initState

/-- C3 counterexample: with cadence 1 and one evaluation episode per
block, after the 2nd training episode the computed training average
return is the mean of the returns of agent.run calls 0 and 2 (the two
learning-mode calls), which differs from the arithmetic mean of the first
2 episodic returns reported by agent.run (calls 0 and 1, call 1 being an
evaluation episode): 1 versus 1/2. -/
theorem train_average_not_mean_of_first_run_returns :
    finalX.train_num_episodes = 2 ∧
    guardedAvg finalX.train_sum_returns finalX.train_num_episodes ≠
      ((List.range 2).map (fun i => (agIdx.run i).ret)).sum / (2 : ℚ) := by
  have hrun : runEpisodes cfgX agIdx (fun _ => 0) initState
      (List.range' 1 2) = .ok finalX := by rfl
  have hr := trainInv_runEpisodes cfgX agIdx (fun _ => 0)
    (List.range' 1 2) initState finalX (by decide) hrun ⟨rfl, rfl⟩
  obtain ⟨⟨h1, h2⟩, h3⟩ := hr
  have hk : finalX.train_num_episodes = 2 := by
    rw [h3]
    rfl
  have hcm : finalX.callModes = [false, true, false, true] := by rfl
  have hval : trainReturnsOf agIdx [false, true, false, true] =
      [(agIdx.run 0).ret, (agIdx.run 2).ret] := by rfl
  refine ⟨hk, ?_⟩
  rw [guardedAvg, if_pos (by omega : 0 < finalX.train_num_episodes),
    h2, hcm, hval, hk]
  simp [agIdx, List.range_succ]

/-- C4: an evaluation block (the evaluation phase entered at an episode
whose state is `s`) starts from a block aggregate that is literally reset
to (0, 0, 0), runs exactly `evaluation_eps` further agent calls with the
evaluation-mode flag true, and the block average return it computes equals
the arithmetic mean of exactly those `evaluation_eps` episodic returns. -/
theorem eval_block_mean (cfg : Config) (ag : AgentStub) (timeO : Nat → Nat)
    (episode : Nat) (s s1 : LoopState) (avg : ℚ)
    (hC : cfg.eval_per_train ≠ 0) (hE : 1 ≤ cfg.evaluation_eps)
    (h : evalPhase cfg ag timeO episode s = .ok (s1, avg)) :
    s1.callModes = s.callModes ++ List.replicate cfg.evaluation_eps true ∧
    avg = (evalRets ag s.callModes.length cfg.evaluation_eps).sum /
      (cfg.evaluation_eps : ℚ) ∧
    (evalRets ag s.callModes.length cfg.evaluation_eps).length =
      cfg.evaluation_eps := by
  rw [evalPhase_ok cfg ag timeO episode s hC (by omega)] at h
  simp only [Except.ok.injEq, Prod.mk.injEq] at h
  obtain ⟨hs, ha⟩ := h
  refine ⟨by rw [← hs], ?_, by simp [evalRets]⟩
  rw [← ha, evalBlockAvg, guardedAvg, if_pos (by omega : 0 < cfg.evaluation_eps)]

/-- The result of one evaluation phase of `cfgW` with the zero agent. -/
def evalW : LoopState × ℚ :=
  (evalPhase cfgW zeroAgent (fun _ => 0) 2 initState).toOption.getD
    (initState, 0)

theorem eval_block_mean_witness :
    evalW.1.callModes =
      initState.callModes ++ List.replicate cfgW.evaluation_eps true ∧
    evalW.2 = (evalRets zeroAgent initState.callModes.length
        cfgW.evaluation_eps).sum / (cfgW.evaluation_eps : ℚ) ∧
    (evalRets zeroAgent initState.callModes.length
        cfgW.evaluation_eps).length = cfgW.evaluation_eps :=
  eval_block_mean cfgW zeroAgent (fun _ => 0) 2 initState evalW.1 evalW.2
    (by decide) (by decide) (by rfl)

theorem ckpt_not_mem_trainScalars (cfg : Config) (ag : AgentStub)
    (episode : Nat) (r : EpisodeResult) (avg : ℚ) (p : String) :
    Event.saveCkpt p ∉ trainScalars cfg ag episode r avg := by
  intro hp
  unfold trainScalars at hp
  split at hp
  · rw [List.mem_append] at hp
    rcases hp with hp | hp
    · simp at hp
    · split at hp <;> simp at hp
  · simp at hp

theorem ckpt_mem_evalPhaseDelta (cfg : Config) (ag : AgentStub)
    (timeO : Nat → Nat) (e : Nat) (s' : LoopState) (p : String)
    (hp : Event.saveCkpt p ∈ evalPhaseDelta cfg ag timeO e s') :
    p = mkCkptPath cfg s'.train_num_episodes
      (pyRound2 (guardedAvg s'.train_sum_returns s'.train_num_episodes))
      (pyRound2 (evalBlockAvg ag s'.callModes.length cfg.evaluation_eps)) := by
  unfold evalPhaseDelta at hp
  simp only [List.append_assoc, List.mem_append] at hp
  rcases hp with hp | hp | hp | hp | hp
  · split at hp <;> simp at hp
  · unfold evalScalars at hp
    split at hp <;> simp at hp
  · split at hp <;> simp at hp
  · simp at hp
  · split at hp
    · simp only [List.mem_singleton, Event.saveCkpt.injEq] at hp
      exact hp
    · simp at hp

/-- The canonical sequence of eval-mode flags after the first k episodes
of the loop: each episode contributes one learning-mode call, followed by
`evaluation_eps` evaluation-mode calls when the episode index is a
boundary. -/
def modesUpTo (cfg : Config) : Nat → List Bool
  | 0 => []
  | e + 1 => modesUpTo cfg e ++ [false] ++
      (if (e + 1) % cfg.eval_per_train = 0 then
        List.replicate cfg.evaluation_eps true
      else [])

theorem modesUpTo_succ (cfg : Config) (e : Nat) :
    modesUpTo cfg (e + 1) = modesUpTo cfg e ++ [false] ++
      (if (e + 1) % cfg.eval_per_train = 0 then
        List.replicate cfg.evaluation_eps true
      else []) := rfl

/-- The training average return the loop computes after episode ep,
expressed from the configuration and the agent stub alone. -/
def trainAvgAt (cfg : Config) (ag : AgentStub) (ep : Nat) : ℚ :=
  guardedAvg (trainReturnsOf ag (modesUpTo cfg ep)).sum ep

/-- The average return of the evaluation block run at boundary ep,
expressed from the configuration and the agent stub alone: the block
covers the last `evaluation_eps` of the first `(modesUpTo cfg ep).length`
agent calls. -/
def evalAvgAt (cfg : Config) (ag : AgentStub) (ep : Nat) : ℚ :=
  evalBlockAvg ag ((modesUpTo cfg ep).length - cfg.evaluation_eps)
    cfg.evaluation_eps

/-- Invariant: the call-mode history is the canonical one, the training
aggregates track the learning-mode returns, and every checkpoint recorded
so far embeds the cumulative episode count of its own boundary and the
rounded training and evaluation averages actually computed there. -/
def PathInv (cfg : Config) (ag : AgentStub) (s : LoopState) : Prop :=
  s.callModes = modesUpTo cfg s.train_num_episodes ∧
  TrainInv ag s ∧
  ∀ p, Event.saveCkpt p ∈ s.events →
    ∃ ep, 0 < ep ∧ ep % cfg.eval_per_train = 0 ∧
      ep ≤ s.train_num_episodes ∧
      p = mkCkptPath cfg ep (pyRound2 (trainAvgAt cfg ag ep))
        (pyRound2 (evalAvgAt cfg ag ep))

theorem pathInv_trainEpisode (cfg : Config) (ag : AgentStub)
    (timeO : Nat → Nat) (s : LoopState) (e : Nat) (s1 : LoopState)
    (he : 0 < e) (hep : e = s.train_num_episodes + 1)
    (h : trainEpisode cfg ag timeO s e = .ok s1) (hInv : PathInv cfg ag s) :
    PathInv cfg ag s1 ∧ s1.train_num_episodes = s.train_num_episodes + 1 := by
  obtain ⟨hmod, hTI, hck⟩ := hInv
  have hTI1 := trainInv_trainEpisode cfg ag timeO s e s1 he h hTI
  have hck1 : ∀ p, Event.saveCkpt p ∈ s.events →
      ∃ ep, 0 < ep ∧ ep % cfg.eval_per_train = 0 ∧
        ep ≤ s.train_num_episodes + 1 ∧
        p = mkCkptPath cfg ep (pyRound2 (trainAvgAt cfg ag ep))
          (pyRound2 (evalAvgAt cfg ag ep)) := by
    intro p hp
    obtain ⟨ep, h1, h2, h3, h4⟩ := hck p hp
    exact ⟨ep, h1, h2, by omega, h4⟩
  refine ⟨⟨?_, hTI1.1, ?_⟩, hTI1.2⟩
  · -- the call-mode history stays canonical
    rw [hTI1.2, ← hep]
    by_cases hC : cfg.eval_per_train = 0
    · rw [trainEpisode_modzero cfg ag timeO s e he hC] at h
      cases h
    · by_cases hm : e % cfg.eval_per_train = 0
      · rw [trainEpisode_boundary cfg ag timeO s e he hC hm] at h
        by_cases hE : cfg.evaluation_eps = 0
        · rw [evalPhase_divzero cfg ag timeO e _ hE] at h
          cases h
        · rw [evalPhase_ok cfg ag timeO e _ hC hE] at h
          simp only [Except.map, Except.ok.injEq] at h
          subst h
          show (trainUpdate cfg ag e s).callModes ++
            List.replicate cfg.evaluation_eps true = modesUpTo cfg e
          rw [trainUpdate_callModes, hmod, hep, modesUpTo_succ,
            if_pos (show (s.train_num_episodes + 1) % cfg.eval_per_train = 0
              by rw [← hep]; exact hm)]
      · rw [trainEpisode_noBoundary cfg ag timeO s e he hC hm] at h
        cases h
        show s.callModes ++ [false] = modesUpTo cfg e
        rw [hmod, hep, modesUpTo_succ,
          if_neg (show ¬(s.train_num_episodes + 1) % cfg.eval_per_train = 0
            by rw [← hep]; exact hm)]
        simp
  · -- every checkpoint is bound to its boundary values
    by_cases hC : cfg.eval_per_train = 0
    · rw [trainEpisode_modzero cfg ag timeO s e he hC] at h
      cases h
    · by_cases hm : e % cfg.eval_per_train = 0
      · rw [trainEpisode_boundary cfg ag timeO s e he hC hm] at h
        by_cases hE : cfg.evaluation_eps = 0
        · rw [evalPhase_divzero cfg ag timeO e _ hE] at h
          cases h
        · rw [evalPhase_ok cfg ag timeO e _ hC hE] at h
          simp only [Except.map, Except.ok.injEq] at h
          subst h
          have hcnt : (trainUpdate cfg ag e s).train_num_episodes =
              s.train_num_episodes + 1 := by rw [trainUpdate_char]
          have hmodse : modesUpTo cfg e =
              (modesUpTo cfg s.train_num_episodes ++ [false]) ++
                List.replicate cfg.evaluation_eps true := by
            rw [hep, modesUpTo_succ, if_pos (by rw [← hep]; exact hm)]
          have hcm : (trainUpdate cfg ag e s).callModes =
              modesUpTo cfg s.train_num_episodes ++ [false] := by
            rw [trainUpdate_callModes, hmod]
          intro p hp
          have hp2 : Event.saveCkpt p ∈ (trainUpdate cfg ag e s).events ++
              evalPhaseDelta cfg ag timeO e (trainUpdate cfg ag e s) := hp
          rw [trainUpdate_events, List.mem_append, List.mem_append] at hp2
          rcases hp2 with (hp2 | hp2) | hp2
          · obtain ⟨ep, h1, h2, h3, h4⟩ := hck1 p hp2
            exact ⟨ep, h1, h2, by
              show ep ≤ (trainUpdate cfg ag e s).train_num_episodes
              omega, h4⟩
          · exact absurd hp2 (ckpt_not_mem_trainScalars cfg ag e _ _ p)
          · have hpath := ckpt_mem_evalPhaseDelta cfg ag timeO e _ p hp2
            have hsum : (trainUpdate cfg ag e s).train_sum_returns =
                (trainReturnsOf ag (trainUpdate cfg ag e s).callModes).sum :=
              (trainInv_trainUpdate cfg ag e s hTI).2
            have htr : trainReturnsOf ag (modesUpTo cfg e) =
                trainReturnsOf ag (trainUpdate cfg ag e s).callModes := by
              rw [hmodse, trainReturnsOf_replicate_true, hcm]
            have hta : guardedAvg (trainUpdate cfg ag e s).train_sum_returns
                (trainUpdate cfg ag e s).train_num_episodes =
                trainAvgAt cfg ag e := by
              rw [trainAvgAt, htr, ← hsum, hcnt, hep]
            have hbase : (modesUpTo cfg e).length - cfg.evaluation_eps =
                (trainUpdate cfg ag e s).callModes.length := by
              rw [hmodse, hcm]
              simp only [List.length_append, List.length_replicate,
                List.length_singleton]
              omega
            have hea : evalBlockAvg ag
                (trainUpdate cfg ag e s).callModes.length
                cfg.evaluation_eps = evalAvgAt cfg ag e := by
              rw [evalAvgAt, hbase]
            refine ⟨e, he, hm, by
              show e ≤ (trainUpdate cfg ag e s).train_num_episodes
              omega, ?_⟩
            rw [hpath, hta, hea, hcnt, ← hep]
      · rw [trainEpisode_noBoundary cfg ag timeO s e he hC hm] at h
        cases h
        intro p hp
        have hp2 : Event.saveCkpt p ∈ s.events ++
            trainScalars cfg ag e (ag.run s.callModes.length)
              (guardedAvg
                (s.train_sum_returns + (ag.run s.callModes.length).ret)
                (s.train_num_episodes + 1)) := by
          rw [← trainUpdate_events]
          exact hp
        rw [List.mem_append] at hp2
        rcases hp2 with hp2 | hp2
        · obtain ⟨ep, h1, h2, h3, h4⟩ := hck1 p hp2
          refine ⟨ep, h1, h2, ?_, h4⟩
          have hcnt2 : (trainUpdate cfg ag e s).train_num_episodes =
              s.train_num_episodes + 1 := by rw [trainUpdate_char]
          show ep ≤ (trainUpdate cfg ag e s).train_num_episodes
          omega
        · exact absurd hp2 (ckpt_not_mem_trainScalars cfg ag e _ _ p)

theorem pathInv_runEpisodes (cfg : Config) (ag : AgentStub)
    (timeO : Nat → Nat) :
    ∀ (m k : Nat) (s s1 : LoopState), s.train_num_episodes = k →
    PathInv cfg ag s →
    runEpisodes cfg ag timeO s (List.range' (k + 1) m) = .ok s1 →
    PathInv cfg ag s1 ∧ s1.train_num_episodes = k + m := by
  intro m
  induction m with
  | zero =>
      intro k s s1 hk hInv h
      cases h
      exact ⟨hInv, by omega⟩
  | succ m ih =>
      intro k s s1 hk hInv h
      rw [List.range'_succ, runEpisodes_cons] at h
      cases h1 : trainEpisode cfg ag timeO s (k + 1) with
      | error err => rw [h1] at h; cases h
      | ok mid =>
          rw [h1] at h
          simp only [Except.bind] at h
          have hstep := pathInv_trainEpisode cfg ag timeO s (k + 1) mid
            (by omega) (by omega) h1 hInv
          have htail := ih (k + 1) mid s1 (by rw [hstep.2, hk]) hstep.1 h
          exact ⟨htail.1, by omega⟩

/-- C7: every checkpoint written during a completed run is placed under
the directory ./tests/save_model/ at a path of the form
env_algo_s_seed_ep_episodes_tr_trainAvg_er_evalAvg with extension .pt
(see `mkCkptPath`), where episodes is the actual cumulative training
episode count at the boundary that wrote it (positive, divisible by the
cadence, at most training_eps), trainAvg is the training average return
actually computed after that episode, rounded to two decimals, and
evalAvg is the average return of that boundary's own evaluation block,
rounded to two decimals. -/
theorem checkpoint_path_form (cfg : Config) (ag : AgentStub)
    (timeO : Nat → Nat) (ts : String) (r : RunResult)
    (h : program cfg ag timeO ts = .ok r) :
    ∀ p, Event.saveCkpt p ∈ r.final.events →
      ∃ ep, 0 < ep ∧ ep % cfg.eval_per_train = 0 ∧
        ep ≤ cfg.training_eps ∧
        p = mkCkptPath cfg ep (pyRound2 (trainAvgAt cfg ag ep))
          (pyRound2 (evalAvgAt cfg ag ep)) := by
  unfold program at h
  cases hc : constructAgent cfg with
  | error err =>
      rw [hc] at h
      simp [Bind.bind, Except.bind] at h
  | ok ctor =>
      rw [hc] at h
      simp only [Bind.bind, Except.bind] at h
      cases hr : runEpisodes cfg ag timeO initState
          (List.range' 1 cfg.training_eps) with
      | error err =>
          rw [hr] at h
          simp at h
      | ok final =>
          rw [hr] at h
          simp only [Pure.pure, Except.pure, Except.ok.injEq] at h
          subst h
          have hi0 : PathInv cfg ag initState := by
            refine ⟨rfl, ⟨rfl, rfl⟩, ?_⟩
            intro p hp
            simp [initState] at hp
          have hrun := pathInv_runEpisodes cfg ag timeO cfg.training_eps 0
            initState final rfl hi0 (by simpa using hr)
          intro p hp
          obtain ⟨ep, h1, h2, h3, h4⟩ := hrun.1.2.2 p hp
          exact ⟨ep, h1, h2, by omega, h4⟩

/-- A one-episode configuration with threshold 0 and tensorboard off,
whose single evaluation block writes one checkpoint. -/
def cfgY : Config :=
  ⟨"sumo", "td3", 0, 1, 1, 1, 200, 0, false, 0, ""⟩

/-- The training-episode state update of the single episode of `cfgY`. -/
def sY : LoopState :=
  trainUpdate cfgY zeroAgent 1 initState

/-- The path of the checkpoint written by the single evaluation block of
`cfgY` with the zero agent. -/
def pY : String :=
  mkCkptPath cfgY sY.train_num_episodes
    (pyRound2 (guardedAvg sY.train_sum_returns sY.train_num_episodes))
    (pyRound2 (evalBlockAvg zeroAgent sY.callModes.length cfgY.evaluation_eps))

/-- The run result of the one-episode program on `cfgY`. -/
def progY : RunResult :=
  (program cfgY zeroAgent (fun _ => 0) "t").toOption.getD
    ⟨⟨.td3M, none, false, false, none, none⟩, none, initState⟩

theorem cfgY_run_ok :
    program cfgY zeroAgent (fun _ => 0) "t" =
      .ok ⟨⟨.td3M, none, false, false, none, none⟩, none,
        ⟨sY.callModes ++ List.replicate cfgY.evaluation_eps true,
         sY.train_num_steps, sY.train_sum_returns, sY.train_num_episodes, 0,
         sY.events ++ evalPhaseDelta cfgY zeroAgent (fun _ => 0) 1 sY⟩⟩ := by
  have hb := trainEpisode_boundary cfgY zeroAgent (fun _ => 0) initState 1
    (by decide) (by decide) (by decide)
  have heo := evalPhase_ok cfgY zeroAgent (fun _ => 0) 1 sY
    (by decide) (by decide)
  rw [show sY = trainUpdate cfgY zeroAgent 1 initState from rfl] at heo
  rw [heo] at hb
  simp only [Except.map] at hb
  unfold program
  rw [show constructAgent cfgY =
    .ok ⟨.td3M, none, false, false, none, none⟩ from rfl]
  simp only [Bind.bind, Except.bind]
  rw [show List.range' 1 cfgY.training_eps = [1] from rfl,
    runEpisodes_cons, hb]
  simp only [Except.bind, runEpisodes_nil]
  rfl

theorem checkpoint_path_form_witness :
    ∃ ep, 0 < ep ∧ ep % cfgY.eval_per_train = 0 ∧
      ep ≤ cfgY.training_eps ∧
      pY = mkCkptPath cfgY ep (pyRound2 (trainAvgAt cfgY zeroAgent ep))
        (pyRound2 (evalAvgAt cfgY zeroAgent ep)) := by
  have hthr : (cfgY.threshold_return : ℚ) ≤
      evalBlockAvg zeroAgent sY.callModes.length cfgY.evaluation_eps := by
    simp [evalBlockAvg, evalRets, guardedAvg, zeroAgent, cfgY, sY,
      trainUpdate_char, initState]
  have hprog : program cfgY zeroAgent (fun _ => 0) "t" = .ok progY := by
    rw [cfgY_run_ok]
    rw [show progY = (program cfgY zeroAgent (fun _ => 0) "t").toOption.getD
      ⟨⟨.td3M, none, false, false, none, none⟩, none, initState⟩ from rfl,
      cfgY_run_ok]
    rfl
  apply checkpoint_path_form cfgY zeroAgent (fun _ => 0) "t" progY hprog pY
  have hev : progY.final.events =
      sY.events ++ evalPhaseDelta cfgY zeroAgent (fun _ => 0) 1 sY := by
    rw [show progY = (program cfgY zeroAgent (fun _ => 0) "t").toOption.getD
      ⟨⟨.td3M, none, false, false, none, none⟩, none, initState⟩ from rfl,
      cfgY_run_ok]
    rfl
  rw [hev, List.mem_append]
  right
  unfold evalPhaseDelta
  simp only [List.append_assoc, List.mem_append]
  refine Or.inr (Or.inr (Or.inr (Or.inr ?_)))
  rw [if_pos hthr]
  exact List.mem_singleton.mpr rfl

/-- Scrub the wall-clock field of a console summary; all other events are
kept as they are. -/
def eventView : Event → Event
  | .printSummary a b c d e f lg _t => .printSummary a b c d e f lg 0
  | ev => ev

/-- The wall-clock-independent view of a loop state: all aggregates plus
the event trace with summary timestamps scrubbed. -/
def stripS (s : LoopState) : LoopState :=
  ⟨s.callModes, s.train_num_steps, s.train_sum_returns,
   s.train_num_episodes, s.train_num_collision, s.events.map eventView⟩

/-- The aggregate metrics of a run: the agent constructor arguments and
the wall-clock-independent view of the final state; the writer directory
name, which embeds a timestamp, is dropped. -/
def aggMetrics (r : RunResult) : AgentCtorArgs × LoopState :=
  (r.ctorArgs, stripS r.final)

theorem stripS_fields {s1 s2 : LoopState} (h : stripS s1 = stripS s2) :
    s1.callModes = s2.callModes ∧
    s1.train_num_steps = s2.train_num_steps ∧
    s1.train_sum_returns = s2.train_sum_returns ∧
    s1.train_num_episodes = s2.train_num_episodes ∧
    s1.train_num_collision = s2.train_num_collision ∧
    s1.events.map eventView = s2.events.map eventView :=
  ⟨by have hx := congrArg LoopState.callModes h; exact hx,
   by have hx := congrArg LoopState.train_num_steps h; exact hx,
   by have hx := congrArg LoopState.train_sum_returns h; exact hx,
   by have hx := congrArg LoopState.train_num_episodes h; exact hx,
   by have hx := congrArg LoopState.train_num_collision h; exact hx,
   by have hx := congrArg LoopState.events h; exact hx⟩

theorem eventView_evalPhaseDelta (cfg : Config) (ag : AgentStub)
    (t1 t2 : Nat → Nat) (e : Nat) (s1 s2 : LoopState)
    (h : stripS s1 = stripS s2) :
    (evalPhaseDelta cfg ag t1 e s1).map eventView =
      (evalPhaseDelta cfg ag t2 e s2).map eventView := by
  obtain ⟨h1, h2, h3, h4, h5, _⟩ := stripS_fields h
  unfold evalPhaseDelta
  rw [h1, h2, h3, h4, h5]
  simp only [List.map_append, List.map_cons, List.map_nil, eventView]

theorem strip_trainUpdate (cfg : Config) (ag : AgentStub) (e : Nat)
    (s1 s2 : LoopState) (h : stripS s1 = stripS s2) :
    stripS (trainUpdate cfg ag e s1) = stripS (trainUpdate cfg ag e s2) := by
  obtain ⟨h1, h2, h3, h4, h5, h6⟩ := stripS_fields h
  rw [trainUpdate_char, trainUpdate_char]
  unfold stripS
  rw [h1, h2, h3, h4, h5]
  simp only [List.map_append, h6]

theorem trainEpisode_zero (cfg : Config) (ag : AgentStub)
    (timeO : Nat → Nat) (s : LoopState) :
    trainEpisode cfg ag timeO s 0 = .ok (trainUpdate cfg ag 0 s) := by
  simp [trainEpisode, Bind.bind, Except.bind, Pure.pure, Except.pure]

theorem strip_trainEpisode (cfg : Config) (ag : AgentStub)
    (t1 t2 : Nat → Nat) (s1 s2 : LoopState) (e : Nat)
    (h : stripS s1 = stripS s2) :
    (trainEpisode cfg ag t1 s1 e).map stripS =
      (trainEpisode cfg ag t2 s2 e).map stripS := by
  by_cases he : 0 < e
  · by_cases hC : cfg.eval_per_train = 0
    · rw [trainEpisode_modzero cfg ag t1 s1 e he hC,
        trainEpisode_modzero cfg ag t2 s2 e he hC]
    · by_cases hm : e % cfg.eval_per_train = 0
      · rw [trainEpisode_boundary cfg ag t1 s1 e he hC hm,
          trainEpisode_boundary cfg ag t2 s2 e he hC hm]
        by_cases hE : cfg.evaluation_eps = 0
        · rw [evalPhase_divzero cfg ag t1 e _ hE,
            evalPhase_divzero cfg ag t2 e _ hE]
        · rw [evalPhase_ok cfg ag t1 e _ hC hE,
            evalPhase_ok cfg ag t2 e _ hC hE]
          simp only [Except.map]
          congr 1
          have hu := strip_trainUpdate cfg ag e s1 s2 h
          obtain ⟨g1, g2, g3, g4, g5, g6⟩ := stripS_fields hu
          unfold stripS
          rw [g1, g2, g3, g4]
          simp only [List.map_append, g6,
            eventView_evalPhaseDelta cfg ag t1 t2 e _ _ hu]
      · rw [trainEpisode_noBoundary cfg ag t1 s1 e he hC hm,
          trainEpisode_noBoundary cfg ag t2 s2 e he hC hm]
        simp only [Except.map]
        rw [strip_trainUpdate cfg ag e s1 s2 h]
  · rw [show e = 0 by omega, trainEpisode_zero, trainEpisode_zero]
    simp only [Except.map]
    rw [strip_trainUpdate cfg ag 0 s1 s2 h]

theorem strip_runEpisodes (cfg : Config) (ag : AgentStub)
    (t1 t2 : Nat → Nat) :
    ∀ (es : List Nat) (s1 s2 : LoopState), stripS s1 = stripS s2 →
    (runEpisodes cfg ag t1 s1 es).map stripS =
      (runEpisodes cfg ag t2 s2 es).map stripS := by
  intro es
  induction es with
  | nil =>
      intro s1 s2 h
      simp only [runEpisodes_nil, Except.map]
      rw [h]
  | cons e es ih =>
      intro s1 s2 h
      rw [runEpisodes_cons, runEpisodes_cons]
      have hstep := strip_trainEpisode cfg ag t1 t2 s1 s2 e h
      cases hx : trainEpisode cfg ag t1 s1 e with
      | error err1 =>
          cases hy : trainEpisode cfg ag t2 s2 e with
          | error err2 =>
              rw [hx, hy] at hstep
              simp only [Except.map, Except.error.injEq] at hstep
              subst hstep
              simp [Except.bind]
          | ok mid2 =>
              rw [hx, hy] at hstep
              simp [Except.map] at hstep
      | ok mid1 =>
          cases hy : trainEpisode cfg ag t2 s2 e with
          | error err2 =>
              rw [hx, hy] at hstep
              simp [Except.map] at hstep
          | ok mid2 =>
              rw [hx, hy] at hstep
              simp only [Except.map, Except.ok.injEq] at hstep
              simp only [Except.bind]
              exact ih mid1 mid2 hstep

/-- C9: re-running the program with the same configuration and the same
deterministic stub agent yields identical aggregate metrics (final
aggregates and the whole metric trace), independently of the wall clock
and of the writer timestamp, which are the only ambient inputs. -/
theorem rerun_same_metrics (cfg : Config) (ag : AgentStub)
    (t1 t2 : Nat → Nat) (ts1 ts2 : String) :
    (program cfg ag t1 ts1).map aggMetrics =
      (program cfg ag t2 ts2).map aggMetrics := by
  unfold program
  cases hc : constructAgent cfg with
  | error err => simp [Bind.bind, Except.bind, Except.map]
  | ok ctor =>
      simp only [Bind.bind, Except.bind]
      have hrun := strip_runEpisodes cfg ag t1 t2
        (List.range' 1 cfg.training_eps) initState initState rfl
      cases hx : runEpisodes cfg ag t1 initState
          (List.range' 1 cfg.training_eps) with
      | error err1 =>
          cases hy : runEpisodes cfg ag t2 initState
              (List.range' 1 cfg.training_eps) with
          | error err2 =>
              rw [hx, hy] at hrun
              simp only [Except.map, Except.error.injEq] at hrun
              subst hrun
              simp [Except.map]
          | ok f2 =>
              rw [hx, hy] at hrun
              simp [Except.map] at hrun
      | ok f1 =>
          cases hy : runEpisodes cfg ag t2 initState
              (List.range' 1 cfg.training_eps) with
          | error err2 =>
              rw [hx, hy] at hrun
              simp [Except.map] at hrun
          | ok f2 =>
              rw [hx, hy] at hrun
              simp only [Except.map, Except.ok.injEq] at hrun
              simp only [Pure.pure, Except.pure, Except.map, aggMetrics,
                Except.ok.injEq, Prod.mk.injEq, true_and]
              exact hrun

end SumoCA
